import Mathlib

/-!
Verification development for the municipal-code RAG pipeline
(`ingest.py`, `load_to_db.py`, `check_db.py`, `main.py`).

Text is modelled as `List Char`.  The section splitter of `load_to_db.py`
uses `re.split` with the capturing pattern of three dot-separated digit
groups; we embed that regex split directly (the pattern admits no
backtracking beyond maximal digit runs, so a maximal-munch scanner is
exactly the Python semantics).
-/

namespace MunicipalAI

/-- A LangChain `Document`: page content plus the optional `section`
metadata entry (absent for fallback chunks).  The metadata mapping of the
Python `Document` is either the singleton `section` entry or empty, so it
is embedded as `sectionId : Option (List Char)`. -/
structure Document where
  page_content : List Char
  sectionId : Option (List Char)
deriving DecidableEq

/-- Split a char list into its maximal leading run of digits and the rest
(the behaviour of a greedy `\d+` at the current position). -/
def takeDigits : List Char → List Char × List Char
  | [] => ([], [])
  | c :: cs =>
    if c.isDigit then
      let r := takeDigits cs
      (c :: r.1, r.2)
    else
      ([], c :: cs)

theorem takeDigits_append (cs : List Char) :
    (takeDigits cs).1 ++ (takeDigits cs).2 = cs := by
  induction cs with
  | nil => rfl
  | cons c cs ih =>
    by_cases h : c.isDigit <;> simp [takeDigits, h, ih]

theorem takeDigits_length (cs : List Char) :
    (takeDigits cs).1.length + (takeDigits cs).2.length = cs.length := by
  have h := congrArg List.length (takeDigits_append cs)
  simpa using h

/-- Match the regex `(\d+\.\d+\.\d+)` at the START of `cs`: on success
return the matched text and the remaining suffix.  Since a digit is never
a dot, the greedy maximal-munch digit runs coincide with Python's
backtracking semantics for this pattern. -/
def matchSectionId (cs : List Char) : Option (List Char × List Char) :=
  match takeDigits cs with
  | (c1 :: d1, '.' :: r1) =>
    match takeDigits r1 with
    | (c2 :: d2, '.' :: r2) =>
      match takeDigits r2 with
      | (c3 :: d3, r3) =>
        some ((c1 :: d1) ++ '.' :: (c2 :: d2) ++ '.' :: c3 :: d3, r3)
      | _ => none
    | _ => none
  | _ => none

theorem matchSectionId_append {cs m r : List Char}
    (h : matchSectionId cs = some (m, r)) : m ++ r = cs := by
  unfold matchSectionId at h
  split at h
  case _ c1 d1 r1 heq =>
    split at h
    case _ c2 d2 r2 heq2 =>
      split at h
      case _ c3 d3 r3 heq3 =>
        injection h with h
        injection h with hm hr
        subst hm; subst hr
        have e1 := takeDigits_append cs
        have e2 := takeDigits_append r1
        have e3 := takeDigits_append r2
        rw [heq] at e1
        rw [heq2] at e2
        rw [heq3] at e3
        simp only [← e1, ← e2, ← e3]
        simp
      case _ => exact absurd h (by simp)
    case _ => exact absurd h (by simp)
  case _ => exact absurd h (by simp)

theorem matchSectionId_rest_lt {cs m r : List Char}
    (h : matchSectionId cs = some (m, r)) : r.length < cs.length := by
  have happ := matchSectionId_append h
  have hm : m ≠ [] := by
    unfold matchSectionId at h
    split at h
    case _ => split at h
              case _ => split at h
                        case _ =>
                          injection h with h
                          injection h with hm _
                          subst hm; simp
                        case _ => exact absurd h (by simp)
              case _ => exact absurd h (by simp)
    case _ => exact absurd h (by simp)
  have : m.length + r.length = cs.length := by
    have := congrArg List.length happ
    simpa using this
  have hml : 0 < m.length := List.length_pos.mpr hm
  omega

/-- The accumulator-based scanner realising `re.split(r'(\d+\.\d+\.\d+)', text)`:
scan left to right; at each position try the pattern; on a match emit the
pending plain fragment and the captured identifier, then continue after the
match; otherwise shift one character into the pending fragment.  The `fuel`
argument makes the recursion structural; every call consumes at least one
character, so `fuel = cs.length` is always enough, and with the invariant
`cs.length ≤ fuel` the fuel-0 case is only reached at `cs = []`. -/
def splitAuxGo : Nat → List Char → List Char → List (List Char)
  | 0, _, acc => [acc.reverse]
  | fuel + 1, cs, acc =>
    match matchSectionId cs with
    | some (m, rest) => acc.reverse :: m :: splitAuxGo fuel rest []
    | none =>
      match cs with
      | [] => [acc.reverse]
      | c :: cs' => splitAuxGo fuel cs' (c :: acc)

/-- `re.split(r'(\d+\.\d+\.\d+)', text)`: the resulting fragment list,
alternating plain text (even indices) and captured identifiers (odd
indices). -/
def reSplit (cs : List Char) : List (List Char) :=
  splitAuxGo cs.length cs []

/-- Python `str.strip()`: remove leading and trailing whitespace. -/
def pyStrip (cs : List Char) : List Char :=
  ((cs.dropWhile Char.isWhitespace).reverse.dropWhile Char.isWhitespace).reverse

/-- The document-building loop of `load_to_db.py` (`for i in range(1, len, 2):
if i + 1 < len: append Document(splits[i+1].strip(), section = splits[i])`),
expressed on the fragment list with the leading fragment already removed:
consume (identifier, content) pairs; a trailing identifier without a
following content fragment yields nothing. -/
def pairUp : List (List Char) → List Document
  | a :: b :: rest => ⟨pyStrip b, some a⟩ :: pairUp rest
  | _ => []

/-- Step 2 of `load_to_db.main`: build `documents` from the `re.split`
fragments.  Index 0 (text before the first identifier) is skipped because
the Python loop starts at index 1. -/
def buildDocuments : List (List Char) → List Document
  | [] => []
  | _ :: rest => pairUp rest

/-- Modelled from the spec: the fallback chunker is LangChain's
`RecursiveCharacterTextSplitter(chunk_size 1000, chunk_overlap 200)`, a
library collaborator whose boundary heuristic is not in this repository's
sources.  Per the spec it produces a fixed-size overlapping chunking of the
raw text with chunk length 1000 and overlap 200; the boundary heuristic is
modelled as the plain sliding window: chunks of 1000 characters advancing
by 800, the final chunk possibly shorter.  The `fuel` argument makes the
recursion structural; under the invariant `cs.length ≤ fuel` the fuel-0
case is only reached at `cs = []`. -/
def chunkTextGo : Nat → List Char → List (List Char)
  | 0, _ => []
  | fuel + 1, cs =>
    if cs.length = 0 then []
    else if cs.length ≤ 1000 then [cs]
    else cs.take 1000 :: chunkTextGo fuel (cs.drop 800)

/-- Modelled from the spec (see `chunkTextGo`): the fallback chunking of a
raw text. -/
def chunkText (cs : List Char) : List (List Char) :=
  chunkTextGo cs.length cs

/-- The full section splitter of `load_to_db.main` (steps 2 and 3): parse
sections with the regex; if fewer than 10 documents result, replace them
entirely with the fallback chunking of the raw text, whose documents carry
no `section` metadata. -/
def splitSections (text : List Char) : List Document :=
  let documents := buildDocuments (reSplit text)
  if documents.length < 10 then
    (chunkText text).map (fun c => ⟨c, none⟩)
  else
    documents

/-! ### OCR cache loader (`ingest.py`) -/

/-- The filesystem state visible to `get_ocr_text`: whether the source PDF
exists, and the OCR cache file's contents when it exists. -/
structure FS where
  pdfExists : Bool
  cacheContents : Option (List Char)
deriving DecidableEq

/-- `ingest.get_ocr_text`, with the opaque OCR collaborator's joined output
passed in as `ocr`.  Returns (returned text or `None`, whether the OCR
collaborator was invoked, resulting filesystem).  The source checks the PDF
path FIRST (step 1) and only then the cache (step 2); a cache hit returns
the cache contents verbatim; a cold run invokes OCR and writes the cache. -/
def get_ocr_text (fs : FS) (ocr : List Char) :
    Option (List Char) × Bool × FS :=
  if fs.pdfExists = false then
    (none, false, fs)
  else
    match fs.cacheContents with
    | some c => (some c, false, fs)
    | none => (some ocr, true, ⟨fs.pdfExists, some ocr⟩)

/-- Outcome of running an entry point: it either halts normally or an
uncaught exception propagates out (crashing the process). -/
inductive EntryResult
  | halted
  | crashed
deriving DecidableEq

/-- The `__main__` block of `ingest.py`: call `get_ocr_text`, then
unconditionally evaluate `len(extracted_text)`.  When `get_ocr_text`
returned `None`, `len(None)` raises `TypeError`, which nothing catches. -/
def ingestEntry (fs : FS) (ocr : List Char) : EntryResult :=
  match (get_ocr_text fs ocr).1 with
  | none => .crashed
  | some _ => .halted

/-! ### Vector store loader (`load_to_db.py`, steps 4 and 5) -/

/-- Modelled from the spec: the Chroma vector store collaborator is opaque;
per the spec's collaborator contract it is a persisted collection of
records.  The on-disk state is `none` when no database directory exists and
`some records` otherwise; opening at a path picks up the persisted records,
and `add_documents` appends. -/
abbrev DiskDB := Option (List Document)

/-- Steps 4 and 5 of `load_to_db.main`: if the database directory exists,
`shutil.rmtree` it; open a fresh store at the path; add all documents. -/
def rebuild_index (documents : List Document) (disk : DiskDB) : DiskDB :=
  let cleared : DiskDB := if disk.isSome then none else disk
  let opened : List Document := cleared.getD []
  some (opened ++ documents)

/-- Record count of the persisted store (0 when no database exists). -/
def recordCount (disk : DiskDB) : Nat :=
  (disk.getD []).length

/-- The start of `load_to_db.main` (step 1): if the OCR text file does not
exist, print an error and `return` — the entry point halts cleanly with no
documents produced; otherwise read the text and run the splitter. -/
def loadToDbEntry (ocrFile : Option (List Char)) :
    EntryResult × Option (List Document) :=
  match ocrFile with
  | none => (.halted, none)
  | some text => (.halted, some (splitSections text))

/-! ### Collaborator exceptions (`check_db.py`, `load_to_db.py`, `main.py`) -/

/-- Result of invoking an opaque collaborator: a normal value or a raised
exception (identified by a numeric id). -/
inductive Outcome (α : Type)
  | ok (a : α)
  | raised (e : Nat)
deriving DecidableEq

/-- What a run of `check_db.__main__` did: which checks ran to completion,
which collaborator exceptions were caught and reported, and whether any
exception propagated out. -/
structure CheckReport where
  directRan : Bool
  wrapperRan : Bool
  reported : List Nat
  propagated : Option Nat
deriving DecidableEq

/-- `check_db.check_with_direct_client`: early-return when the database
directory is missing; otherwise the collaborator calls sit inside
`try/except Exception`, so a raised exception is reported and never
propagates.  Returns (reported exceptions, propagated exception). -/
def check_with_direct_client (dbExists : Bool) (client : Outcome (List Nat)) :
    List Nat × Option Nat :=
  if dbExists = false then ([], none)
  else
    match client with
    | .ok _ => ([], none)
    | .raised e => ([e], none)

/-- `check_db.check_with_langchain_wrapper`: the whole body sits inside
`try/except Exception`, so a raised exception is reported and never
propagates. -/
def check_with_langchain_wrapper (wrapper : Outcome (List Document)) :
    List Nat × Option Nat :=
  match wrapper with
  | .ok _ => ([], none)
  | .raised e => ([e], none)

/-- `check_db.__main__`: run the direct check, then (unless an exception
propagated, which cannot happen) the wrapper check. -/
def checkDbMain (dbExists : Bool) (client : Outcome (List Nat))
    (wrapper : Outcome (List Document)) : CheckReport :=
  let d := check_with_direct_client dbExists client
  match d.2 with
  | some e => ⟨true, false, d.1, some e⟩
  | none =>
    let w := check_with_langchain_wrapper wrapper
    ⟨true, true, d.1 ++ w.1, w.2⟩

/-- Steps 5 and 6 of `load_to_db.main`: `db.add_documents` (the ingestion
collaborator call) is NOT inside any `try`, so its exception propagates;
the verification step that follows IS inside `try/except Exception`.
Returns the exception that propagates out of `main`, if any. -/
def loadToDbIngest (addDocuments : Outcome Unit) (verification : Outcome Nat) :
    Option Nat :=
  match addDocuments with
  | .raised e => some e
  | .ok _ =>
    match verification with
    | .raised _ => none
    | .ok _ => none

/-! ### Query assistant (`main.py`) -/

/-- Python `str.lower()` (ASCII case folding suffices for the inputs the
comparison distinguishes). -/
def pyLower (cs : List Char) : List Char := cs.map Char.toLower

/-- The loop guard `user_question.lower() == 'exit'`. -/
def isExit (q : List Char) : Bool := pyLower q = "exit".data

/-- Counts of collaborator calls made by a run, and whether the loop
reached `break` (clean termination via `exit`). -/
structure RunStats where
  retrievals : Nat
  generations : Nat
  exited : Bool
deriving DecidableEq

/-- The interactive Q&A loop of `main.py` run on a script of input lines:
read a line; `break` if it case-insensitively equals `exit`; otherwise
`rag_chain.invoke` performs one retrieval and one generation, and the loop
continues.  An exhausted script ends the run without reaching `break`. -/
def runLoop : List (List Char) → RunStats
  | [] => ⟨0, 0, false⟩
  | q :: rest =>
    if isExit q then ⟨0, 0, true⟩
    else
      let s := runLoop rest
      ⟨s.retrievals + 1, s.generations + 1, s.exited⟩

/-- All collaborator calls of `main.main`: before the loop, the retriever
quick test (`retriever.invoke(question)`) performs one retrieval; then the
loop runs. -/
def runMain (inputs : List (List Char)) : RunStats :=
  let s := runLoop inputs
  ⟨s.retrievals + 1, s.generations, s.exited⟩

/-- One loop iteration's generation path: `rag_chain.invoke` is not inside
any `try`, so a collaborator exception propagates and terminates the run. -/
def queryTurn (chain : Outcome (List Char)) : Option Nat :=
  match chain with
  | .raised e => some e
  | .ok _ => none

/-- Elements at even indices of a list. -/
def evens {α : Type} : List α → List α
  | [] => []
  | [a] => [a]
  | a :: _ :: rest => a :: evens rest

/-- Elements at odd indices of a list. -/
def odds {α : Type} : List α → List α
  | [] => []
  | [_] => []
  | _ :: b :: rest => b :: odds rest

/-- The input text of the spec's end-to-end splitter scenario. -/
def sampleText : List Char :=
  "12.04.010 No fences over 6 feet. 12.04.020 Permits required.".data

/-- Two consecutive chunks overlap by up to 200 characters: what remains of
the first chunk past position 800 is exactly the first (at most 200
characters) of the next chunk. -/
def overlapRel (a b : List Char) : Prop :=
  a.drop 800 = b.take 200 ∧ (a.drop 800).length ≤ 200

/-! ## Helper lemmas -/

theorem matchSectionId_nil : matchSectionId [] = none := rfl

theorem splitAuxGo_flatten (fuel : Nat) :
    ∀ cs acc : List Char, cs.length ≤ fuel →
      (splitAuxGo fuel cs acc).flatten = acc.reverse ++ cs := by
  induction fuel with
  | zero =>
    intro cs acc h
    have : cs = [] := List.length_eq_zero.mp (Nat.le_zero.mp h)
    subst this
    simp [splitAuxGo]
  | succ fuel ih =>
    intro cs acc h
    cases cs with
    | nil => simp [splitAuxGo, matchSectionId_nil]
    | cons c cs' =>
      rw [splitAuxGo]
      cases hm : matchSectionId (c :: cs') with
      | some p =>
        obtain ⟨m, rest⟩ := p
        have hlt := matchSectionId_rest_lt hm
        have happ := matchSectionId_append hm
        have hrest : rest.length ≤ fuel := by
          simp only [List.length_cons] at hlt h
          omega
        simp only [List.flatten_cons]
        rw [ih rest [] hrest]
        simp [← happ]
      | none =>
        have hcs' : cs'.length ≤ fuel := by
          simp only [List.length_cons] at h
          omega
        rw [ih cs' (c :: acc) hcs']
        simp

theorem reSplit_flatten (cs : List Char) : (reSplit cs).flatten = cs := by
  have h := splitAuxGo_flatten cs.length cs [] le_rfl
  simpa [reSplit] using h

theorem splitAuxGo_ne_nil (fuel : Nat) :
    ∀ cs acc : List Char, splitAuxGo fuel cs acc ≠ [] := by
  induction fuel with
  | zero => intro cs acc; simp [splitAuxGo]
  | succ fuel ih =>
    intro cs acc
    cases cs with
    | nil => simp [splitAuxGo, matchSectionId_nil]
    | cons c cs' =>
      rw [splitAuxGo]
      cases hm : matchSectionId (c :: cs') with
      | some p => simp
      | none => exact ih cs' (c :: acc)

theorem reSplit_ne_nil (cs : List Char) : reSplit cs ≠ [] :=
  splitAuxGo_ne_nil cs.length cs []

theorem pairUp_eq_zipWith (l : List (List Char)) :
    pairUp l =
      List.zipWith (fun a b => Document.mk (pyStrip b) (some a)) (evens l) (odds l) := by
  induction l using evens.induct with
  | case1 => rfl
  | case2 a => simp [pairUp, evens, odds]
  | case3 a b rest ih => simp [pairUp, evens, odds, ih]

theorem pairUp_length (l : List (List Char)) :
    (pairUp l).length = l.length / 2 := by
  induction l using evens.induct with
  | case1 => rfl
  | case2 a => simp [pairUp]
  | case3 a b rest ih =>
    simp only [pairUp, List.length_cons, ih]
    omega

theorem buildDocuments_cons (a : List Char) (rest : List (List Char)) :
    buildDocuments (a :: rest) = pairUp rest := rfl

theorem chunkTextGo_le (fuel : Nat) :
    ∀ cs : List Char, ∀ c ∈ chunkTextGo fuel cs, c.length ≤ 1000 := by
  induction fuel with
  | zero => intro cs c hc; simp [chunkTextGo] at hc
  | succ fuel ih =>
    intro cs c hc
    rw [chunkTextGo] at hc
    by_cases h0 : cs.length = 0
    · simp [h0] at hc
    · by_cases h1 : cs.length ≤ 1000
      · simp [h0, h1] at hc
        subst hc
        exact h1
      · simp [h0, h1] at hc
        rcases hc with hc | hc
        · subst hc
          simp
        · exact ih (cs.drop 800) c hc

theorem chunkText_le (cs : List Char) :
    ∀ c ∈ chunkText cs, c.length ≤ 1000 :=
  chunkTextGo_le cs.length cs

theorem chunkTextGo_head (fuel : Nat) :
    ∀ cs : List Char, 0 < cs.length → cs.length ≤ fuel →
      ∃ l, chunkTextGo fuel cs = cs.take 1000 :: l := by
  induction fuel with
  | zero => intro cs hpos h; omega
  | succ fuel ih =>
    intro cs hpos h
    rw [chunkTextGo]
    by_cases h0 : cs.length = 0
    · omega
    · by_cases h1 : cs.length ≤ 1000
      · refine ⟨[], ?_⟩
        simp [h0, h1, List.take_of_length_le h1]
      · exact ⟨chunkTextGo fuel (cs.drop 800), by simp [h0, h1]⟩

theorem chunkTextGo_chain (fuel : Nat) :
    ∀ cs : List Char, cs.length ≤ fuel →
      List.Chain' overlapRel (chunkTextGo fuel cs) := by
  induction fuel with
  | zero => intro cs h; simp [chunkTextGo]
  | succ fuel ih =>
    intro cs h
    rw [chunkTextGo]
    by_cases h0 : cs.length = 0
    · simp [h0]
    · by_cases h1 : cs.length ≤ 1000
      · simp [h0, h1]
      · simp only [h0, h1, if_false, if_neg]
        have hdl : (cs.drop 800).length ≤ fuel := by
          simp only [List.length_drop]
          omega
        have hdpos : 0 < (cs.drop 800).length := by
          simp only [List.length_drop]
          omega
        obtain ⟨l, hl⟩ := chunkTextGo_head fuel (cs.drop 800) hdpos hdl
        rw [List.chain'_cons']
        refine ⟨?_, ih (cs.drop 800) hdl⟩
        intro y hy
        rw [hl] at hy
        simp only [List.head?_cons, Option.mem_def, Option.some.injEq] at hy
        subst hy
        constructor
        · rw [List.drop_take, List.take_take]
          norm_num
        · simp only [List.length_drop, List.length_take]
          omega

theorem chunkText_chain (cs : List Char) :
    List.Chain' overlapRel (chunkText cs) :=
  chunkTextGo_chain cs.length cs le_rfl

/-! ## Claims -/

/-- C1, counterexample: on the scenario input the primary regex pass finds
only two sections, so the `len(documents) < 10` fallback branch fires and
the splitter's output is NOT the two labelled sections the claim states. -/
theorem C1_counterexample :
    splitSections sampleText ≠
      [⟨"No fences over 6 feet.".data, some "12.04.010".data⟩,
       ⟨"Permits required.".data, some "12.04.020".data⟩] := by
  decide

/-- C1, amended: on the scenario input the primary regex parsing stage
yields exactly the two claimed sections, first `12.04.010` with content
`No fences over 6 feet.` and second `12.04.020` with content
`Permits required.`; but because fewer than 10 sections were found, the
splitter's final output is instead the fallback chunking of the raw text —
here a single chunk holding the whole text with no section identifier. -/
theorem C1_amended_scenario :
    buildDocuments (reSplit sampleText) =
      [⟨"No fences over 6 feet.".data, some "12.04.010".data⟩,
       ⟨"Permits required.".data, some "12.04.020".data⟩]
    ∧ splitSections sampleText = [⟨sampleText, none⟩] := by
  constructor
  · decide
  · decide

/-- C2, counterexample: with `exit` as the first (and only) input line,
the loop terminates, but the whole run of `main` has made one retrieval
call — the retriever quick test executed before the loop — so "zero
retrieval calls during the entire run" fails. -/
theorem C2_counterexample :
    ¬ ((runMain ["exit".data]).exited = true
       ∧ (runMain ["exit".data]).retrievals = 0
       ∧ (runMain ["exit".data]).generations = 0) := by
  decide

/-- C2, amended: if the user's first input line is the literal `exit`, the
loop terminates with zero retrieval and zero generation calls made by the
loop itself; the entire run makes exactly one retrieval call (the startup
retriever quick test) and zero generation calls. -/
theorem C2_amended_exit_first (rest : List (List Char)) :
    runLoop ("exit".data :: rest) = ⟨0, 0, true⟩
    ∧ runMain ("exit".data :: rest) = ⟨1, 0, true⟩ := by
  have h : isExit "exit".data = true := by decide
  refine ⟨?_, ?_⟩
  · simp [runLoop, h]
  · simp [runMain, runLoop, h]

/-- C3, counterexample: `get_ocr_text` validates the PDF path before the
cache check, so when the cache exists but the source PDF does not, it
returns `None` rather than the cache contents. -/
theorem C3_counterexample :
    ¬ ((get_ocr_text ⟨false, some "hi".data⟩ []).1 = some "hi".data) := by
  decide

/-- C3, amended: whenever the source PDF exists and the cache file exists,
`get_ocr_text` returns the cache file's full contents verbatim, never
invokes the OCR collaborator, and leaves the filesystem unchanged (so a
second invocation does not invoke OCR either); but when the PDF is absent
the cache is not consulted and `None` is returned instead. -/
theorem C3_cache_trusted (fs : FS) (ocr c : List Char)
    (hp : fs.pdfExists = true) (hc : fs.cacheContents = some c) :
    get_ocr_text fs ocr = (some c, false, fs) := by
  simp [get_ocr_text, hp, hc]

/-- C3, witness for `C3_cache_trusted` at a concrete filesystem. -/
theorem C3_cache_trusted_wit :
    (FS.mk true (some "hi".data)).pdfExists = true
    ∧ (FS.mk true (some "hi".data)).cacheContents = some "hi".data
    ∧ get_ocr_text ⟨true, some "hi".data⟩ []
        = (some "hi".data, false, ⟨true, some "hi".data⟩) :=
  ⟨rfl, rfl, C3_cache_trusted _ _ _ rfl rfl⟩

/-- C4: the primary regex parse emits sections in document order — the
fragment list of the split flattens back to the original text, the k-th
document is built from the k-th (identifier, following content) pair, and a
trailing identifier with no following content fragment is dropped (the
document count is the floor of half the number of post-leading fragments). -/
theorem C4_sections_in_order (cs : List Char) :
    buildDocuments (reSplit cs) =
      List.zipWith (fun a b => Document.mk (pyStrip b) (some a))
        (evens ((reSplit cs).drop 1)) (odds ((reSplit cs).drop 1))
    ∧ (reSplit cs).flatten = cs
    ∧ (buildDocuments (reSplit cs)).length = ((reSplit cs).length - 1) / 2 := by
  obtain ⟨x, rest, hx⟩ : ∃ x rest, reSplit cs = x :: rest := by
    cases h : reSplit cs with
    | nil => exact absurd h (reSplit_ne_nil cs)
    | cons x rest => exact ⟨x, rest, rfl⟩
  refine ⟨?_, reSplit_flatten cs, ?_⟩
  · rw [hx, buildDocuments_cons]
    simpa using pairUp_eq_zipWith rest
  · rw [hx, buildDocuments_cons, pairUp_length]
    simp

/-- C5: whenever the primary regex strategy found fewer than 10 sections,
the splitter's output is replaced entirely by the fallback chunking of the
raw text: every chunk is at most 1000 characters, consecutive chunks
overlap by up to 200 characters, and no chunk carries a section identifier
in its metadata. -/
theorem C5_fallback_chunks (text : List Char)
    (h : (buildDocuments (reSplit text)).length < 10) :
    splitSections text = (chunkText text).map (fun c => ⟨c, none⟩)
    ∧ (∀ c ∈ chunkText text, c.length ≤ 1000)
    ∧ List.Chain' overlapRel (chunkText text)
    ∧ ∀ d ∈ splitSections text, d.sectionId = none := by
  have h1 : splitSections text = (chunkText text).map (fun c => ⟨c, none⟩) := by
    simp [splitSections, h]
  refine ⟨h1, chunkText_le text, chunkText_chain text, ?_⟩
  intro d hd
  rw [h1] at hd
  simp only [List.mem_map] at hd
  obtain ⟨c, _, hc⟩ := hd
  rw [← hc]

/-- C5, witness for `C5_fallback_chunks` on a short text that the regex
pass leaves with zero sections. -/
theorem C5_fallback_chunks_wit :
    (buildDocuments (reSplit "hello".data)).length < 10
    ∧ (splitSections "hello".data
         = (chunkText "hello".data).map (fun c => ⟨c, none⟩)
       ∧ (∀ c ∈ chunkText "hello".data, c.length ≤ 1000)
       ∧ List.Chain' overlapRel (chunkText "hello".data)
       ∧ ∀ d ∈ splitSections "hello".data, d.sectionId = none) :=
  ⟨by decide, C5_fallback_chunks _ (by decide)⟩

/-- C6: ingestion deletes any existing persisted database before adding,
so rebuilding with the same section list yields a record count equal to
the section count, and rebuilding twice yields that same count both times
— old records never accumulate. -/
theorem C6_full_rebuild (documents : List Document) (disk : DiskDB) :
    recordCount (rebuild_index documents disk) = documents.length
    ∧ recordCount (rebuild_index documents (rebuild_index documents disk))
        = documents.length := by
  have key : ∀ d : DiskDB, rebuild_index documents d = some documents := by
    intro d
    cases d <;> simp [rebuild_index]
  rw [key, key]
  simp [recordCount]

/-- C7: the claim holds for `load_to_db.main` (missing OCR text file is
reported and the entry point halts cleanly), but the `ingest.py` entry
point violates it: with the source PDF absent, `get_ocr_text` returns
`None` and the `__main__` block then evaluates `len(extracted_text)` on
`None`, raising an uncaught `TypeError` that crashes the process. -/
theorem C7_missing_pdf_crash :
    ingestEntry ⟨false, none⟩ [] = EntryResult.crashed
    ∧ (loadToDbEntry none).1 = EntryResult.halted
    ∧ (loadToDbEntry none).2 = none := by
  decide

/-- C8: a collaborator exception in the diagnostic paths of `check_db.py`
is caught next to the call, reported, and the other independent check still
runs with nothing propagating; whereas a collaborator exception in the
ingestion path (`db.add_documents`) or the generation path
(`rag_chain.invoke`) is not caught and propagates out, terminating the
run. -/
theorem C8_exception_propagation (e : Nat) (client : Outcome (List Nat))
    (w : Outcome (List Document)) (v : Outcome Nat) :
    (checkDbMain true (.raised e) w).propagated = none
    ∧ (checkDbMain true (.raised e) w).wrapperRan = true
    ∧ e ∈ (checkDbMain true (.raised e) w).reported
    ∧ (checkDbMain true client (.raised e)).propagated = none
    ∧ e ∈ (checkDbMain true client (.raised e)).reported
    ∧ loadToDbIngest (.raised e) v = some e
    ∧ queryTurn (.raised e) = some e := by
  refine ⟨?_, ?_, ?_, ?_, ?_, rfl, rfl⟩
  · cases w <;>
      simp [checkDbMain, check_with_direct_client, check_with_langchain_wrapper]
  · cases w <;>
      simp [checkDbMain, check_with_direct_client, check_with_langchain_wrapper]
  · cases w <;>
      simp [checkDbMain, check_with_direct_client, check_with_langchain_wrapper]
  · cases client <;>
      simp [checkDbMain, check_with_direct_client, check_with_langchain_wrapper]
  · cases client <;>
      simp [checkDbMain, check_with_direct_client, check_with_langchain_wrapper]

/-- C9: the interactive loop reaches its `break` exactly when some input
line case-insensitively equals `exit`; every line before the first such
line is sent to retrieval and to generation (one call each) and the loop
continues past it. -/
theorem C9_exit_iff (inputs : List (List Char)) :
    ((runLoop inputs).exited = true ↔ ∃ q ∈ inputs, isExit q = true)
    ∧ (runLoop inputs).retrievals
        = (inputs.takeWhile (fun q => !isExit q)).length
    ∧ (runLoop inputs).generations
        = (inputs.takeWhile (fun q => !isExit q)).length := by
  induction inputs with
  | nil => simp [runLoop]
  | cons q rest ih =>
    by_cases h : isExit q
    · simp [runLoop, h, List.takeWhile_cons]
    · simp [runLoop, h, List.takeWhile_cons, ih.1, ih.2.1, ih.2.2]

/-- C10: the fragment at even index 0 of the split (the text preceding the
first identifier occurrence) never contributes to any emitted section:
replacing it by anything at all leaves the built documents unchanged. -/
theorem C10_leading_fragment_discarded (cs pre : List Char) :
    buildDocuments (pre :: (reSplit cs).drop 1) = buildDocuments (reSplit cs) := by
  obtain ⟨x, rest, hx⟩ : ∃ x rest, reSplit cs = x :: rest := by
    cases h : reSplit cs with
    | nil => exact absurd h (reSplit_ne_nil cs)
    | cons x rest => exact ⟨x, rest, rfl⟩
  rw [hx]
  simp [buildDocuments_cons]

end MunicipalAI
